import Mathlib

/-!
Verification of the Milton (Microvision emulation core) repository.

The definitions below are a shallow embedding of the Rust sources.
Machine integers of width w are represented as `Nat` values, masked to
`2^w` exactly where the `arbitrary_int` types (`u1`, `u3`, `u4`, `u6`,
`u11`, ...) mask in the source: on every store into a typed register and
on the result of shifts (the crate masks shift results to the type
width).  Arrays are represented as `List Nat`, indexed with `getD`;
fallible operations (assertion failures, division by zero) are
represented with `Option`.
-/

set_option maxRecDepth 100000

namespace Milton

/-- Four-bit reversal, the embedding of `u4::reverse_bits` from the
`arbitrary_int` crate: bit 0 swaps with bit 3 and bit 1 with bit 2. -/
def rev4 (n : Nat) : Nat :=
  ((n &&& 1) <<< 3) ||| ((n &&& 2) <<< 1) ||| ((n &&& 4) >>> 1) ||| ((n &&& 8) >>> 3)

/-! Micro-instruction flag constants from `src/core/src/tms1100.rs`
(module `pla`) and `src/core/src/tms1100/pla.rs` (module
`instructions`); the two files define identical bit positions. -/

/-- Micro-instruction CKP: CKI bus to the P adder input. -/
def CKP : Nat := 1 <<< 0

/-- Micro-instruction YTP: Y register to the P adder input. -/
def YTP : Nat := 1 <<< 1

/-- Micro-instruction MTP: RAM data to the P adder input. -/
def MTP : Nat := 1 <<< 2

/-- Micro-instruction ATN: accumulator to the N adder input. -/
def ATN : Nat := 1 <<< 3

/-- Micro-instruction NATN: negated accumulator to the N adder input. -/
def NATN : Nat := 1 <<< 4

/-- Micro-instruction MTN: RAM data to the N adder input. -/
def MTN : Nat := 1 <<< 5

/-- Micro-instruction 15TN: the value 0xf to the N adder input. -/
def FTN : Nat := 1 <<< 6

/-- Micro-instruction CKN: CKI bus to the N adder input. -/
def CKN : Nat := 1 <<< 7

/-- Micro-instruction CIN: carry input of the adder. -/
def CIN : Nat := 1 <<< 8

/-- Micro-instruction NE: status narrows to the inequality of P and N. -/
def NE : Nat := 1 <<< 9

/-- Micro-instruction C8: status narrows to the adder carry. -/
def C8 : Nat := 1 <<< 10

/-- Micro-instruction STO: accumulator to RAM. -/
def STO : Nat := 1 <<< 11

/-- Micro-instruction CKM: CKI bus to RAM. -/
def CKM : Nat := 1 <<< 12

/-- Micro-instruction AUTA: adder result to the accumulator. -/
def AUTA : Nat := 1 <<< 13

/-- Micro-instruction AUTY: adder result to the Y register. -/
def AUTY : Nat := 1 <<< 14

/-- Micro-instruction STSL: adder status to the status latch. -/
def STSL : Nat := 1 <<< 15

/-- An entry of the instruction decode PLA (`struct Entry(u16)`),
identical in `src/core/src/tms1100.rs` and `src/core/src/tms1100/pla.rs`. -/
structure Entry where
  val : Nat
deriving DecidableEq, Repr

/-- The entry used to initialize the TMS1100 (`Entry::INIT` and
`Entry::EMPTY`). -/
def Entry.INIT : Entry := ⟨0⟩

/-- Embedding of `Entry::enables::<MICRO>`: test a micro-instruction bit. -/
def Entry.enables (e : Entry) (m : Nat) : Bool := e.val &&& m != 0

/-- Embedding of `Entry::decode`, the dense opcode match of
`src/core/src/tms1100.rs` lines 144-176 (identical to
`src/core/src/tms1100/pla.rs` lines 215-247). -/
def Entry.decode (op : Nat) : Entry :=
  if op = 0x00 then ⟨MTP ||| ATN ||| NE⟩
  else if op = 0x01 then ⟨MTP ||| NATN ||| CIN ||| C8⟩
  else if op = 0x02 then ⟨YTP ||| ATN ||| NE ||| STSL⟩
  else if op = 0x03 then ⟨MTP ||| STO ||| AUTA⟩
  else if op = 0x04 then ⟨YTP ||| FTN ||| C8 ||| AUTY⟩
  else if op = 0x05 then ⟨YTP ||| CIN ||| C8 ||| AUTY⟩
  else if op = 0x06 then ⟨ATN ||| MTP ||| C8 ||| AUTA⟩
  else if op = 0x07 then ⟨MTP ||| FTN ||| C8 ||| AUTA⟩
  else if op = 0x08 then ⟨CKP ||| AUTA⟩
  else if op = 0x0e then ⟨CKP ||| NE⟩
  else if op = 0x20 then ⟨ATN ||| AUTY⟩
  else if op = 0x21 then ⟨MTP ||| AUTA⟩
  else if op = 0x22 then ⟨MTP ||| AUTY⟩
  else if op = 0x23 then ⟨YTP ||| AUTA⟩
  else if op = 0x24 then ⟨STO ||| YTP ||| FTN ||| C8 ||| AUTY⟩
  else if op = 0x25 then ⟨STO ||| YTP ||| CIN ||| C8 ||| AUTY⟩
  else if op = 0x26 then ⟨STO ||| AUTA⟩
  else if op = 0x27 then ⟨STO⟩
  else if 0x38 ≤ op ∧ op ≤ 0x3b then ⟨CKP ||| CKN ||| MTP ||| NE⟩
  else if op = 0x3c then ⟨MTP ||| NATN ||| CIN ||| C8 ||| AUTA⟩
  else if op = 0x3d then ⟨NATN ||| CIN ||| C8 ||| AUTA⟩
  else if op = 0x3e then ⟨MTP ||| CIN ||| C8 ||| AUTA⟩
  else if op = 0x3f then ⟨MTP ||| NE⟩
  else if 0x40 ≤ op ∧ op ≤ 0x4f then ⟨CKP ||| AUTY⟩
  else if 0x50 ≤ op ∧ op ≤ 0x5f then ⟨YTP ||| CKN ||| NE⟩
  else if 0x60 ≤ op ∧ op ≤ 0x6f then ⟨CKM ||| YTP ||| CIN ||| AUTY⟩
  else if 0x70 ≤ op ∧ op ≤ 0x7e then ⟨CKP ||| ATN ||| CIN ||| C8 ||| AUTA⟩
  else if op = 0x7f then ⟨CKP ||| CIN ||| C8 ||| AUTA⟩
  else ⟨0⟩

/-- The fixed-instruction tag of `src/core/src/tms1100.rs` (13 variants,
including the `None` variant used by that file for non-fixed opcodes). -/
inductive Fixed where
  | Br
  | Call
  | Comc
  | Comx
  | Ldp
  | Ldx
  | Rbit
  | Retn
  | Rstr
  | Sbit
  | Setr
  | Tdo
  | None
deriving DecidableEq, Repr

/-- Embedding of `Fixed::decode` from `src/core/src/tms1100.rs` lines
241-257.  The match arms are tried in source order; note the
`0x01..=0x1f => Self::Ldp` arm of this file. -/
def Fixed.decode (op : Nat) : Fixed :=
  if op = 0x09 then .Comx
  else if op = 0x0a then .Tdo
  else if op = 0x0b then .Comc
  else if op = 0x0c then .Rstr
  else if op = 0x0d then .Setr
  else if op = 0x0f then .Retn
  else if 0x30 ≤ op ∧ op ≤ 0x33 then .Sbit
  else if 0x34 ≤ op ∧ op ≤ 0x37 then .Rbit
  else if 0x01 ≤ op ∧ op ≤ 0x1f then .Ldp
  else if 0x28 ≤ op ∧ op ≤ 0x2f then .Ldx
  else if 0x80 ≤ op ∧ op ≤ 0xbf then .Br
  else if 0xc0 ≤ op ∧ op ≤ 0xff then .Call
  else .None

namespace pla

/-- The fixed-instruction tag of `src/core/src/tms1100/pla.rs` (12
variants; that file returns `Option<Fixed>` from its decoder). -/
inductive Fixed where
  | Br
  | Call
  | Retn
  | Comc
  | Comx
  | Ldp
  | Ldx
  | Rbit
  | Sbit
  | Rstr
  | Setr
  | Tdo
deriving DecidableEq, Repr

/-- Embedding of `Fixed::decode` from `src/core/src/tms1100/pla.rs`
lines 350-368.  Note the `0x10..=0x1f => Self::Ldp` arm of this file. -/
def Fixed.decode (op : Nat) : Option Fixed :=
  if op = 0x09 then some .Comx
  else if op = 0x0a then some .Tdo
  else if op = 0x0b then some .Comc
  else if op = 0x0c then some .Rstr
  else if op = 0x0d then some .Setr
  else if op = 0x0f then some .Retn
  else if 0x30 ≤ op ∧ op ≤ 0x33 then some .Sbit
  else if 0x34 ≤ op ∧ op ≤ 0x37 then some .Rbit
  else if 0x10 ≤ op ∧ op ≤ 0x1f then some .Ldp
  else if 0x28 ≤ op ∧ op ≤ 0x2f then some .Ldx
  else if 0x80 ≤ op ∧ op ≤ 0xbf then some .Br
  else if 0xc0 ≤ op ∧ op ≤ 0xff then some .Call
  else none

end pla

/-! Memory chips, from `src/core/src/memory.rs` (the file
`src/core/src/tms1100/mem.rs` defines the identical `read` and
`checksum`). -/

/-- Embedding of `RomAddr::full`: assemble `chapter<<10 | page<<6 | addr`. -/
def RomAddr.full (chapter page addr : Nat) : Nat :=
  chapter <<< 10 ||| page <<< 6 ||| addr

/-- The 2048 x 8-bit ROM chip; the backing array is a list of bytes. -/
structure Rom where
  data : List Nat
deriving DecidableEq, Repr

/-- Embedding of `Rom::read`: index the data with the full address
masked to 11 bits. -/
def Rom.read (rom : Rom) (chapter page addr : Nat) : Nat :=
  rom.data.getD (RomAddr.full chapter page addr &&& 0x7ff) 0

/-- Embedding of `Rom::checksum`: fold the bytes with `u16::wrapping_add`
starting from zero. -/
def Rom.checksum (rom : Rom) : Nat :=
  rom.data.foldl (fun acc b => (acc + b) % 65536) 0

/-- Embedding of `RamAddr::full`: assemble `x<<4 | y`. -/
def RamAddr.full (x y : Nat) : Nat := x <<< 4 ||| y

/-- The 128 x 4-bit RAM chip. -/
structure Ram where
  data : List Nat
deriving DecidableEq, Repr

/-- Embedding of `Ram::read`: index the data with the full address masked
to 7 bits. -/
def Ram.read (ram : Ram) (x y : Nat) : Nat :=
  ram.data.getD (RamAddr.full x y &&& 0x7f) 0

/-- Embedding of `Ram::write`. -/
def Ram.write (ram : Ram) (x y v : Nat) : Ram :=
  ⟨ram.data.set (RamAddr.full x y &&& 0x7f) v⟩

/-! The TMS1100 micro-processor, from `src/core/src/tms1100.rs`. -/

/-- Embedding of `struct Alu` (P and N inputs, result, carry input and
status output, all 4-bit or boolean). -/
structure Alu where
  p : Nat
  n : Nat
  res : Nat
  carry_in : Bool
  status : Bool
deriving DecidableEq, Repr

/-- Embedding of `Alu::new` (also of `Alu::reset`, which assigns `new`). -/
def Alu.new : Alu := ⟨0, 0, 0, false, false⟩

/-- Embedding of `Alu::clock`: two chained `overflowing_add` steps on
4-bit values; returns the updated ALU and the carry-out flag.  The
status output is set to true unconditionally (micro-instructions narrow
it afterwards). -/
def Alu.clock (a : Alu) : Alu × Bool :=
  let carry_in : Nat := if a.carry_in then 1 else 0
  let r1 := (a.p + a.n) % 16
  let c1 := 16 ≤ a.p + a.n
  let r2 := (r1 + carry_in) % 16
  let c2 := 16 ≤ r1 + carry_in
  ({ a with res := r2, status := true }, c1 || c2)

/-- Embedding of `struct Flags`: the call latch and the SL status latch. -/
structure Flags where
  call : Bool
  status : Bool
deriving DecidableEq, Repr

/-- Embedding of `enum Counter`, the sub-instruction cycle counter. -/
inductive Counter where
  | Cycle0
  | Cycle1
  | Cycle2
  | Cycle3
  | Cycle4
  | Cycle5
deriving DecidableEq, Repr

/-- Embedding of `Counter::next`: advance to the next sub-instruction
cycle, wrapping 5 to 0. -/
def Counter.next : Counter → Counter
  | .Cycle0 => .Cycle1
  | .Cycle1 => .Cycle2
  | .Cycle2 => .Cycle3
  | .Cycle3 => .Cycle4
  | .Cycle4 => .Cycle5
  | .Cycle5 => .Cycle0

/-- Embedding of `struct Tms1100`.  The pin registers `r` (u11), `o`
(u5), `k` (u4) and the register file are plain naturals kept within
their widths by the masking performed at each store. -/
structure Tms1100 where
  r : Nat
  o : Nat
  k : Nat
  alu : Alu
  flags : Flags
  a : Nat
  x : Nat
  y : Nat
  pc : Nat
  sr : Nat
  pa : Nat
  pb : Nat
  ca : Nat
  cb : Nat
  cs : Nat
  cycle : Counter
  opcode : Nat
  fixed : Fixed
  micro : Entry
  constant : Nat
  ram_data : Nat
  cki_latch : Nat
deriving Repr

/-- Embedding of `Tms1100::new`: all registers zero, cycle 0, no fixed
instruction, empty micro entry. -/
def Tms1100.new : Tms1100 where
  r := 0
  o := 0
  k := 0
  alu := Alu.new
  flags := ⟨false, false⟩
  a := 0
  x := 0
  y := 0
  pc := 0
  sr := 0
  pa := 0
  pb := 0
  ca := 0
  cb := 0
  cs := 0
  cycle := .Cycle0
  opcode := 0x00
  fixed := .None
  micro := Entry.INIT
  constant := 0
  ram_data := 0
  cki_latch := 0

/-- Embedding of the program-counter step of `Tms1100::next_pc`
(`src/core/src/tms1100.rs` lines 614-630, identical in
`src/core/src/tms1100/mod.rs` lines 304-320): the feedback bit is the
AND of the two highest bits of the 6-bit PC (`(pc << 1) >> 5 & pc >> 5`
in u6 arithmetic), overridden to 1 at `0b011111` and to 0 at `0b111111`;
the PC becomes `pc << 1 | feedback` in u6 arithmetic. -/
def nextPc (pc : Nat) : Nat :=
  let feedback := ((pc <<< 1) % 64) >>> 5 &&& pc >>> 5
  let feedback := if pc = 0x1f then 1 else if pc = 0x3f then 0 else feedback
  ((pc <<< 1) % 64) ||| feedback

/-- Embedding of `Tms1100::next_pc` at the state level. -/
def Tms1100.next_pc (s : Tms1100) : Tms1100 :=
  { s with pc := nextPc s.pc }

/-- Embedding of `Tms1100::next_opcode` (`src/core/src/tms1100.rs` lines
634-645): the opcode is fetched at `RomAddr::new(self.cs, self.pa,
self.pc)` — the chapter argument passed by the source is the CS latch —
then the constant, fixed and micro decodes are refreshed and the PC is
advanced. -/
def Tms1100.next_opcode (s : Tms1100) (rom : Rom) : Tms1100 :=
  let opcode := rom.read s.cs s.pa s.pc
  let s := { s with
    opcode := opcode
    constant := rev4 (opcode &&& 0xf)
    fixed := Fixed.decode opcode
    micro := Entry.decode opcode }
  s.next_pc

/-- Embedding of `Tms1100::read_cki` (`src/core/src/tms1100.rs` lines
650-660).  The bit-select arm masks the shifted value to the 4-bit
width of the CKI latch, the behaviour of a width-masked `u4` shift. -/
def Tms1100.read_cki (s : Tms1100) : Tms1100 :=
  let g := s.opcode &&& 0xf8
  let v :=
    if g = 0x08 then s.k
    else if g = 0x30 ∨ g = 0x38 then (1 <<< ((s.constant >>> 2) ^^^ 0xf)) % 16
    else if g = 0x00 ∨ g = 0x40 ∨ g = 0x48 ∨ g = 0x50 ∨ g = 0x58 ∨ g = 0x60 ∨
            g = 0x68 ∨ g = 0x70 ∨ g = 0x78 then s.constant
    else 0
  { s with cki_latch := v }

/-- The branch/call/return part of cycle 0 of `Tms1100::clock`. -/
def Tms1100.cycle0Branch (s : Tms1100) : Tms1100 :=
  if s.fixed = .Br then
    if s.flags.status then
      let s := if !s.flags.call then { s with pa := s.pb } else s
      { s with ca := s.cb, pc := s.opcode &&& 0x3f }
    else s
  else if s.fixed = .Call then
    if s.flags.status then
      let prev_pa := s.pa
      let s :=
        if !s.flags.call then
          { s with flags := { s.flags with call := true }, sr := s.pc, pa := s.pb, cs := s.ca }
        else s
      { s with ca := s.cb, pb := prev_pa, pc := s.opcode &&& 0x3f }
    else s
  else if s.fixed = .Retn then
    let s :=
      if s.flags.call then
        { s with flags := { s.flags with call := false }, pc := s.sr, ca := s.cs }
      else s
    { s with pa := s.pb }
  else s

/-- Embedding of `Tms1100::clock` (`src/core/src/tms1100.rs` lines
662-809): execute the work of the current sub-instruction cycle, then
advance the cycle counter.  Returns the updated processor and RAM. -/
def Tms1100.clock (s : Tms1100) (rom : Rom) (ram : Ram) : Tms1100 × Ram :=
  let stepped :=
    match s.cycle with
    | .Cycle0 =>
      let s := s.cycle0Branch
      let s := s.read_cki
      let s := { s with ram_data := ram.read s.x s.y }
      let s := { s with alu := Alu.new }
      (s, ram)
    | .Cycle1 =>
      let s := if s.micro.enables FTN then { s with alu := { s.alu with n := s.alu.n ||| 0xf } } else s
      let s := if s.micro.enables ATN then { s with alu := { s.alu with n := s.alu.n ||| s.a } } else s
      let s := if s.micro.enables NATN then { s with alu := { s.alu with n := s.alu.n ||| (s.a ^^^ 0xf) } } else s
      let s := if s.micro.enables CKN then { s with alu := { s.alu with n := s.alu.n ||| s.cki_latch } } else s
      let s := if s.micro.enables MTN then { s with alu := { s.alu with n := s.alu.n ||| s.ram_data } } else s
      let s := if s.micro.enables CKP then { s with alu := { s.alu with p := s.alu.p ||| s.cki_latch } } else s
      let s := if s.micro.enables MTP then { s with alu := { s.alu with p := s.alu.p ||| s.ram_data } } else s
      let s := if s.micro.enables YTP then { s with alu := { s.alu with p := s.alu.p ||| s.y } } else s
      let s := if s.micro.enables CIN then { s with alu := { s.alu with carry_in := true } } else s
      (s, ram)
    | .Cycle2 =>
      let clocked := s.alu.clock
      let s := { s with alu := clocked.1 }
      let carry := clocked.2
      let s := if s.micro.enables C8 then { s with alu := { s.alu with status := s.alu.status && carry } } else s
      let s := if s.micro.enables NE then { s with alu := { s.alu with status := s.alu.status && (s.alu.p != s.alu.n) } } else s
      let s := if s.micro.enables CKM then { s with ram_data := s.cki_latch } else s
      let s := if s.micro.enables STO then { s with ram_data := s.a } else s
      let s :=
        if s.fixed = Fixed.Comc then { s with cb := s.cb ^^^ 1 }
        else if s.fixed = Fixed.Comx then { s with x := s.x ^^^ 0x7 }
        else if s.fixed = Fixed.Ldp then { s with pb := s.constant }
        else if s.fixed = Fixed.Ldx then { s with x := s.constant >>> 1 }
        else if s.fixed = Fixed.Rbit then { s with ram_data := s.ram_data &&& s.cki_latch }
        else if s.fixed = Fixed.Rstr then
          let idx := (s.x >>> 2) <<< 4 ||| s.y
          { s with r := s.r &&& (((1 <<< idx) % 2048) ^^^ 0x7ff) }
        else if s.fixed = Fixed.Sbit then { s with ram_data := s.ram_data ||| (s.cki_latch ^^^ 0xf) }
        else if s.fixed = Fixed.Setr then
          let idx := (s.x >>> 2) <<< 4 ||| s.y
          { s with r := s.r ||| ((1 <<< idx) % 2048) }
        else if s.fixed = Fixed.Tdo then
          { s with o := (if s.flags.status then 1 else 0) ||| s.a }
        else s
      (s, ram.write s.x s.y s.ram_data)
    | .Cycle3 => (s, ram)
    | .Cycle4 =>
      let s := if s.micro.enables AUTA then { s with a := s.alu.res } else s
      let s := if s.micro.enables AUTY then { s with y := s.alu.res } else s
      let s := if s.micro.enables STSL then { s with flags := { s.flags with status := s.alu.status } } else s
      (s.next_opcode rom, ram)
    | .Cycle5 => (s, ram)
  ({ stepped.1 with cycle := stepped.1.cycle.next }, stepped.2)

/-- Iterate `Tms1100::clock` a number of times against a fixed ROM,
threading the RAM through. -/
def Tms1100.clockN (n : Nat) (s : Tms1100) (rom : Rom) (ram : Ram) : Tms1100 × Ram :=
  match n with
  | 0 => (s, ram)
  | m + 1 =>
    let st := s.clock rom ram
    Tms1100.clockN m st.1 rom st.2

/-! The Hughes 0488 LCD driver.  The repository carries two
implementations with identical state: `src/core/src/hughes0488.rs`
(pin-level only) and `src/core/src/lcd.rs` (which additionally emits
pixels to a frontend). -/

/-- The Hughes 0488 driver state: data input, previous pulse and
not-data-clock line values, eight 4-bit address latches, the 3-bit
latch counter, and the 16-bit row and column outputs. -/
structure Hughes where
  data : Nat
  pulse : Bool
  not_clock : Bool
  latches : List Nat
  counter : Nat
  row : Nat
  col : Nat
deriving DecidableEq, Repr

/-- Embedding of `Hughes0488::new`: everything low and zeroed. -/
def Hughes.new : Hughes :=
  ⟨0, false, false, List.replicate 8 0, 0, 0, 0⟩

/-- The row fold of the transfer step: `latches[0..4].iter().fold(0,
|acc, x| (acc << 4) | x)`. -/
def Hughes.rowFold (l : List Nat) : Nat :=
  (l.take 4).foldl (fun acc x => (acc <<< 4) ||| x) 0

/-- The column fold of the transfer step, over `latches[4..8]`. -/
def Hughes.colFold (l : List Nat) : Nat :=
  (l.drop 4).foldl (fun acc x => (acc <<< 4) ||| x) 0

namespace hughes0488

/-- Embedding of `Hughes0488::clock` from `src/core/src/hughes0488.rs`
lines 79-109: bump the counter on a rising edge of the not-data-clock,
latch the data when the clock is low, transfer the latches to the row
and column outputs when pulse and clock are both high, and reset the
counter whenever pulse is high. -/
def clock (h : Hughes) (data : Nat) (pulse not_clock : Bool) : Hughes :=
  let h := if !h.not_clock && not_clock then { h with counter := (h.counter + 1) % 8 } else h
  let h := { h with not_clock := not_clock }
  let h := { h with pulse := pulse }
  let h := if !h.not_clock then { h with latches := h.latches.set (h.counter &&& 7) data } else h
  let h :=
    if h.pulse && h.not_clock then
      { h with row := Hughes.rowFold h.latches, col := Hughes.colFold h.latches }
    else h
  if h.pulse then { h with counter := 0 } else h

end hughes0488

/-- The double loop of the pixel emission (`for y in 0..=15 { ... for x
in 0..=15 { ... enable_pixel(x, y) } }`), shared verbatim by
`src/core/src/lcd.rs` and `src/core/src/lib.rs`: the emitted calls in
order, as `(x, y)` pairs. -/
def emitPixels (row col : Nat) : List (Nat × Nat) :=
  (List.range 16).flatMap fun y =>
    if row >>> y &&& 1 = 0 then []
    else (List.range 16).filterMap fun x =>
      if col >>> x &&& 1 != 0 then some (x, y) else none

namespace lcd

/-- The prefix of the driver clock: bump the counter on a rising edge
of the not-data-clock, sample the two lines, and latch the data when
the clock is low (the first four statements of `Hughes0488::clock` in
`src/core/src/lcd.rs`). -/
def latchStep (h : Hughes) (data : Nat) (pulse not_clock : Bool) : Hughes :=
  let h := if !h.not_clock && not_clock then { h with counter := (h.counter + 1) % 8 } else h
  let h := { h with not_clock := not_clock }
  let h := { h with pulse := pulse }
  if !h.not_clock then { h with latches := h.latches.set (h.counter &&& 7) data } else h

/-- Embedding of `Hughes0488::clock` from `src/core/src/lcd.rs` lines
99-153 (textually identical in `src/core/src/display.rs` lines
145-199), returning the updated driver and the list of `enable_pixel`
calls.  When pulse and clock are both high but the transferred row or
column pattern is zero the source returns early, which skips the final
pulse-driven counter reset. -/
def clock (h : Hughes) (data : Nat) (pulse not_clock : Bool) : Hughes × List (Nat × Nat) :=
  let h := latchStep h data pulse not_clock
  if h.pulse && h.not_clock then
    let h := { h with row := Hughes.rowFold h.latches, col := Hughes.colFold h.latches }
    if h.row = 0 || h.col = 0 then (h, [])
    else
      let pix := emitPixels h.row h.col
      (if h.pulse then { h with counter := 0 } else h, pix)
  else (if h.pulse then { h with counter := 0 } else h, [])

end lcd

/-! The Piezo buzzer, from `src/core/src/buzzer.rs`, and its timing
helper `Ms::elapsed` from `src/core/src/common.rs`. -/

/-- Embedding of `struct Buzzer`: previous pulse line value, pulse
count, and the start and end times of the pulse period (microseconds). -/
structure Buzzer where
  pulse : Bool
  pulse_times : Nat
  start : Nat
  end_ : Nat
deriving DecidableEq, Repr

/-- A call made by `Buzzer::sync` on its frontend. -/
inductive BuzzerCall where
  | enable (pitch : Nat)
  | disable
deriving DecidableEq, Repr

/-- Embedding of `Ms::elapsed`: asserts `start <= end` and returns the
difference; the assertion failure is `none`. -/
def Ms.elapsed (start end_ : Nat) : Option Nat :=
  if start ≤ end_ then some (end_ - start) else none

/-- Embedding of `Buzzer::sync` (`src/core/src/buzzer.rs` lines 69-86).
With two or more pulses the source computes `period` via `Ms::elapsed`
and then divides by `period.0`; a zero period is a division by zero,
which panics in Rust, so it is `none` here.  Otherwise the frontend call
and the updated buzzer (pulse count cleared) are returned. -/
def Buzzer.sync (b : Buzzer) : Option (BuzzerCall × Buzzer) :=
  if 2 ≤ b.pulse_times then
    match Ms.elapsed b.start b.end_ with
    | none => none
    | some period =>
      if period = 0 then none
      else
        let pitch := (b.pulse_times - 1) * 1000000 / period
        if 50 ≤ pitch ∧ pitch < 2400 then some (.enable pitch, { b with pulse_times := 0 })
        else some (.disable, { b with pulse_times := 0 })
  else some (.disable, { b with pulse_times := 0 })

/-! The rotary turn percentage.  The repository carries two
constructors: `src/core/src/hardware.rs` clamps, while
`src/core/src/rotary.rs` asserts. -/

namespace hardware

/-- Embedding of `Percentage::new` from `src/core/src/hardware.rs` lines
10-26: `Percentage(amount.min(100))`. -/
def Percentage.new (amount : Nat) : Nat := min amount 100

end hardware

namespace rotary

/-- Embedding of `Percentage::new` from `src/core/src/rotary.rs` lines
69-88: `assert!(amount < 101)` and then the unchanged amount; the
assertion failure (a panic) is `none`. -/
def Percentage.new (amount : Nat) : Option Nat :=
  if amount < 101 then some amount else none

end rotary

/-! The console harness, from `src/core/src/lib.rs`. -/

/-- Embedding of `enum OutputPla` from `src/core/src/hardware.rs`. -/
inductive OutputPla where
  | Normal
  | Reversed
deriving DecidableEq, Repr

/-- Embedding of `OutputPla::modify`: pass the low 4 bits of O through,
or bit-reverse them. -/
def OutputPla.modify (p : OutputPla) (o : Nat) : Nat :=
  match p with
  | .Normal => o &&& 0xf
  | .Reversed => rev4 (o &&& 0xf)

/-- Embedding of `struct CartridgeSpecific` from
`src/core/src/hardware.rs`: rotary charge info, output PLA choice, and
the rotary-enabled flag. -/
structure CartridgeSpecific where
  charge_offset : Nat
  charge_scale : Nat
  output_pla : OutputPla
  rotary_enabled : Bool

/-- The per-tick hardware inputs of `Console::clock`: the keypad state
(`get_key(row, col)`) and the rotary turn percentage
(`rotary.get_value().get()`), plus the cartridge-specific settings of
the `Interface`. -/
structure HwInput where
  keyboard : Nat → Nat → Bool
  rotary : Nat
  cart : CartridgeSpecific

/-- Embedding of `read_column` from `src/core/src/lib.rs` lines 204-214:
a keypad column as a 4-bit value, row 0 at bit 3 down to row 3 at bit 0. -/
def readColumn (kb : Nat → Nat → Bool) (col : Nat) : Nat :=
  (if kb 0 col then 8 else 0) ||| (if kb 1 col then 4 else 0) |||
  (if kb 2 col then 2 else 0) ||| (if kb 3 col then 1 else 0)

/-- Embedding of `struct Console` from `src/core/src/lib.rs`: the CPU,
the LCD driver, ROM, RAM, the speaker and rotary line trackers, and the
elapsed microseconds. -/
structure Console where
  cpu : Tms1100
  driver : Hughes
  rom : Rom
  ram : Ram
  sound_pulses : Nat
  sound_start : Nat
  sound_end : Nat
  sound_status : Bool
  rotary_charge : Nat
  rotary_status : Bool
  elapsed : Nat

/-- Step 1 of `Console::clock`: `self.elapsed += 10`. -/
def Console.timeStep (c : Console) : Console :=
  { c with elapsed := c.elapsed + 10 }

/-- Step 2 of `Console::clock`: `self.cpu.clock(&self.rom, &mut self.ram)`. -/
def Console.cpuStep (c : Console) : Console :=
  let stepped := c.cpu.clock c.rom c.ram
  { c with cpu := stepped.1, ram := stepped.2 }

/-- Step 3 of `Console::clock`: rebuild the 4-bit K input from the
keypad columns selected by the R pins 10, 9 and 8, then apply the
rotary masking and the charge time-out bit. -/
def Console.kStep (c : Console) (hw : HwInput) : Console :=
  let newk : Nat := 0
  let newk := if c.cpu.r >>> 10 &&& 1 != 0 then newk ||| readColumn hw.keyboard 0 else newk
  let newk := if c.cpu.r >>> 9 &&& 1 != 0 then newk ||| readColumn hw.keyboard 1 else newk
  let newk := if c.cpu.r >>> 8 &&& 1 != 0 then newk ||| readColumn hw.keyboard 2 else newk
  let newk :=
    if hw.cart.rotary_enabled then
      let masked := newk &&& 7
      if c.rotary_status && decide (c.rotary_charge < c.elapsed) then masked ||| 8 else masked
    else newk
  { c with cpu := { c.cpu with k := newk } }

/-- Step 4 of `Console::clock`: clock the Hughes 0488 driver with the
PLA-modified O output and the latch-pulse and not-clock bits of R. -/
def Console.driverStep (c : Console) (hw : HwInput) : Console :=
  let newDriver :=
    hughes0488.clock c.driver (hw.cart.output_pla.modify c.cpu.o)
      (c.cpu.r >>> 6 &&& 1 != 0) (c.cpu.r >>> 7 &&& 1 != 0)
  { c with driver := newDriver }

/-- Step 5 of `Console::clock`: track the speaker line and its pulse
timings on a rising edge. -/
def Console.soundStep (c : Console) : Console :=
  let newSound := c.cpu.r &&& 1 != 0
  let c :=
    if !c.sound_status && newSound then
      let c :=
        if c.sound_pulses = 0 then { c with sound_start := c.elapsed }
        else { c with sound_end := c.elapsed }
      { c with sound_pulses := c.sound_pulses + 1 }
    else c
  { c with sound_status := newSound }

/-- Step 6 of `Console::clock`: track the rotary control line, setting
the charge end time on a rising edge. -/
def Console.rotaryStep (c : Console) (hw : HwInput) : Console :=
  let newRotary := c.cpu.r >>> 2 &&& 1 != 0
  let c :=
    if !c.rotary_status && newRotary then
      { c with rotary_charge :=
        c.elapsed + hw.cart.charge_offset + hw.cart.charge_scale * hw.rotary / 10 }
    else c
  { c with rotary_status := newRotary }

/-- Embedding of `Console::clock` (`src/core/src/lib.rs` lines 72-164):
advance time, clock the CPU, rebuild the K input, clock the LCD driver,
track the speaker and rotary lines, and finally emit the enabled pixels
whenever the driver row and column outputs are both nonzero.  Returns
the updated console and the list of `enable_pixel` calls of the tick;
the source performs these steps in this order in one function body. -/
def Console.clock (c : Console) (hw : HwInput) : Console × List (Nat × Nat) :=
  let c := c.timeStep
  let c := c.cpuStep
  let c := c.kStep hw
  let c := c.driverStep hw
  let c := c.soundStep
  let c := c.rotaryStep hw
  if c.driver.row = 0 || c.driver.col = 0 then (c, [])
  else (c, emitPixels c.driver.row c.driver.col)

/-! Concrete fixtures used by the claim theorems. -/

/-- An all-zero 2048-byte ROM image. -/
def romZ : Rom := ⟨List.replicate 2048 0⟩

/-- An all-zero 128-nibble RAM image. -/
def ramZ : Ram := ⟨List.replicate 128 0⟩

/-- A ROM image whose byte at the full address 0x000 is 0xBB and whose
byte at 0x400 (chapter 1, page 0, offset 0) is 0xAA. -/
def romC2 : Rom := ⟨((List.replicate 2048 0).set 0x400 0xAA).set 0x000 0xBB⟩

/-- A CPU about to run sub-cycle 4 whose chapter address latch CA is 1
while the chapter subroutine latch CS is 0. -/
def cpuC2 : Tms1100 :=
  { Tms1100.new with cycle := .Cycle4, ca := 1, cs := 0 }

/-- A CPU at sub-cycle 0 holding A=5 and SL=false with the CLA opcode
0x7f latched and decoded (constant = reverse_bits(0xf) = 0xf). -/
def cpuC4 : Tms1100 :=
  { Tms1100.new with
    a := 5
    opcode := 0x7f
    micro := Entry.decode 0x7f
    fixed := Fixed.decode 0x7f
    constant := rev4 0xf }

/-- A console whose LCD driver still drives row pattern 0x1000 and
column pattern 0xffff from an earlier transfer, with the CPU freshly
reset (all R outputs low, so the latch pulse of the coming tick is low). -/
def consoleC6 : Console where
  cpu := Tms1100.new
  driver := { Hughes.new with row := 0x1000, col := 0xffff }
  rom := romZ
  ram := ramZ
  sound_pulses := 0
  sound_start := 0
  sound_end := 0
  sound_status := false
  rotary_charge := 0
  rotary_status := false
  elapsed := 0

/-- Hardware inputs with no key pressed, rotary at zero, and the default
cartridge settings (offset 600, scale 65, reversed output PLA, rotary
enabled). -/
def hwC6 : HwInput where
  keyboard := fun _ _ => false
  rotary := 0
  cart :=
    { charge_offset := 600
      charge_scale := 65
      output_pla := .Reversed
      rotary_enabled := true }

/-- A CPU holding the SBIT opcode 0x30 latched and decoded (constant =
reverse_bits(0x0) = 0). -/
def cpuC10 : Tms1100 :=
  { Tms1100.new with
    opcode := 0x30
    micro := Entry.decode 0x30
    fixed := Fixed.decode 0x30
    constant := rev4 0 }

/-! Helper lemmas. -/

/-- The 16-bit wrapping fold of the checksum equals the plain sum
modulo 2^16. -/
theorem foldl_wrap_eq (l : List Nat) : ∀ a : Nat,
    l.foldl (fun acc b => (acc + b) % 65536) (a % 65536) = (a + l.sum) % 65536 := by
  induction l with
  | nil => intro a; simp
  | cons b t ih =>
    intro a
    simp only [List.foldl_cons, List.sum_cons]
    rw [Nat.mod_add_mod, ih (a + b), Nat.add_assoc]

/-- Replacing the element at a valid index changes the list sum by the
difference of the new and old values. -/
theorem sum_set_add (l : List Nat) : ∀ i v : Nat, i < l.length →
    (l.set i v).sum + l.getD i 0 = l.sum + v := by
  induction l with
  | nil => intro i v h; simp at h
  | cons b t ih =>
    intro i v h
    cases i with
    | zero => simp [List.set]; omega
    | succ j =>
      have hj : j < t.length := by simpa using h
      have := ih j v hj
      simp only [List.set, List.sum_cons, List.getD_cons_succ]
      omega

/-- Bit selector overflow: for every 4-bit constant the SBIT/RBIT/TBIT
shift amount is at least 12 and the width-masked shift of 1 by it is 0. -/
theorem rev4_shift_overflow : ∀ c : Fin 16,
    12 ≤ (rev4 c.val >>> 2) ^^^ 0xf ∧
    (1 <<< ((rev4 c.val >>> 2) ^^^ 0xf)) % 16 = 0 := by
  decide

/-- Membership in the emitted pixel list: exactly the in-range
coordinates whose row and column bits are set. -/
theorem mem_emitPixels (row col x y : Nat) :
    (x, y) ∈ emitPixels row col ↔
      y < 16 ∧ x < 16 ∧ row >>> y &&& 1 ≠ 0 ∧ col >>> x &&& 1 ≠ 0 := by
  unfold emitPixels
  simp only [List.mem_flatMap, List.mem_range, List.mem_filterMap]
  constructor
  · rintro ⟨y0, hy0, hmem⟩
    by_cases hb : row >>> y0 &&& 1 = 0
    · rw [if_pos hb] at hmem
      simp at hmem
    · rw [if_neg hb] at hmem
      simp only [List.mem_filterMap, List.mem_range] at hmem
      obtain ⟨x0, hx0, hsome⟩ := hmem
      by_cases hcb : col >>> x0 &&& 1 != 0
      · rw [if_pos hcb] at hsome
        obtain ⟨hx, hy⟩ := Prod.mk.injEq .. |>.mp (Option.some.inj hsome)
        subst hx; subst hy
        exact ⟨hy0, hx0, hb, by simpa using hcb⟩
      · rw [if_neg hcb] at hsome
        cases hsome
  · rintro ⟨hy, hx, hr, hc⟩
    refine ⟨y, hy, ?_⟩
    rw [if_neg hr]
    simp only [List.mem_filterMap, List.mem_range]
    exact ⟨x, hx, by rw [if_pos (by simpa using hc)]⟩

/-- The latch prefix of the lcd driver clock samples the pulse line. -/
theorem latchStep_pulse (h : Hughes) (d : Nat) (p nc : Bool) :
    (lcd.latchStep h d p nc).pulse = p := by
  simp [lcd.latchStep, apply_ite]

/-- The latch prefix of the lcd driver clock samples the not-clock line. -/
theorem latchStep_not_clock (h : Hughes) (d : Nat) (p nc : Bool) :
    (lcd.latchStep h d p nc).not_clock = nc := by
  simp [lcd.latchStep, apply_ite]

/-! Claim theorems. -/

/-- C9.  The checksum is the 16-bit wrapping sum of the ROM bytes, and
replacing the byte at a valid index i by v changes the checksum by
exactly v minus the old byte, modulo 2^16. -/
theorem c9_checksum_homomorphism (rom : Rom) (i v : Nat) (h : i < rom.data.length) :
    Rom.checksum rom = rom.data.sum % 65536 ∧
    (Rom.checksum ⟨rom.data.set i v⟩ : ZMod 65536) =
      (Rom.checksum rom : ZMod 65536) + (v : ZMod 65536) - (rom.data.getD i 0 : ZMod 65536) := by
  have hsum : ∀ m : Rom, Rom.checksum m = m.data.sum % 65536 := by
    intro m
    have := foldl_wrap_eq m.data 0
    simpa [Rom.checksum] using this
  refine ⟨hsum rom, ?_⟩
  rw [hsum, hsum]
  have h2 := sum_set_add rom.data i v h
  have h3 : (((rom.data.set i v).sum : ZMod 65536) + (rom.data.getD i 0 : ZMod 65536)) =
      ((rom.data.sum : ZMod 65536) + (v : ZMod 65536)) := by
    exact_mod_cast congrArg (fun n : Nat => (n : ZMod 65536)) h2
  rw [ZMod.natCast_mod, ZMod.natCast_mod]
  linear_combination h3

/-- C9 witness: a four-byte image with the byte at index 1 replaced. -/
theorem c9_checksum_homomorphism_witness :
    Rom.checksum ⟨[10, 20, 30, 40]⟩ = [10, 20, 30, 40].sum % 65536 ∧
    (Rom.checksum ⟨[10, 20, 30, 40].set 1 7⟩ : ZMod 65536) =
      (Rom.checksum ⟨[10, 20, 30, 40]⟩ : ZMod 65536) + (7 : ZMod 65536) -
        ([10, 20, 30, 40].getD 1 0 : ZMod 65536) :=
  c9_checksum_homomorphism ⟨[10, 20, 30, 40]⟩ 1 7 (by decide)

/-- C10.  For every state whose latched opcode lies in the SBIT/RBIT or
TBIT group (op & 0xf8 = 0x30 or 0x38) and whose constant latch holds
the decoded reverse_bits(op & 0xf), the shift amount
(constant >> 2) ^ 0xf is at least 12, and `Tms1100::read_cki` therefore
leaves 0 in the 4-bit CKI latch under the width-masked shift. -/
theorem c10_bit_select_cki_zero (s : Tms1100)
    (hg : s.opcode &&& 0xf8 = 0x30 ∨ s.opcode &&& 0xf8 = 0x38)
    (hc : s.constant = rev4 (s.opcode &&& 0xf)) :
    12 ≤ (s.constant >>> 2) ^^^ 0xf ∧ s.read_cki.cki_latch = 0 := by
  have hm : s.opcode &&& 0xf < 16 :=
    Nat.lt_succ_of_le (Nat.and_le_right)
  have key := rev4_shift_overflow ⟨s.opcode &&& 0xf, hm⟩
  refine ⟨by rw [hc]; exact key.1, ?_⟩
  unfold Tms1100.read_cki
  rcases hg with hg | hg <;>
    simp only [hg] <;>
    · rw [if_neg (by decide), if_pos (by decide), hc]
      exact key.2

/-- C10 witness: the SBIT opcode 0x30 with constant 0. -/
theorem c10_bit_select_cki_zero_witness :
    12 ≤ (cpuC10.constant >>> 2) ^^^ 0xf ∧ cpuC10.read_cki.cki_latch = 0 :=
  c10_bit_select_cki_zero cpuC10 (Or.inl (by decide)) (by decide)

/-- C1.  The PC update rule of `Tms1100::next_pc` does not generate a
full 64-value orbit: the feedback bit is the AND of the two top bits
(the comment in the source says XOR), which makes PC = 0 a fixed point
(and the map is not even injective — 0 and 32 both step to 0).  Every
iterate of the update from the starting value 0 is 0, so the orbit of 0
has 1 element, not 64. -/
theorem c1_nextPc_zero_fixed_point :
    nextPc 0 = 0 ∧ nextPc 32 = 0 ∧ ∀ k : Fin 64, Nat.iterate nextPc k.val 0 = 0 := by
  decide

/-- C2.  On sub-cycle 4 the opcode is fetched with the chapter
subroutine latch CS as the chapter bit, not the chapter address latch
CA: with CA = 1 and CS = 0 the fetch of `Tms1100::clock` returns the
byte at chapter 0 (0xBB) although the address assembled from CA holds
0xAA. -/
theorem c2_fetch_uses_cs_not_ca :
    (Tms1100.clock cpuC2 romC2 ramZ).1.opcode = 0xBB ∧
    Rom.read romC2 cpuC2.ca cpuC2.pa cpuC2.pc = 0xAA ∧
    cpuC2.ca = 1 ∧ cpuC2.cs = 0 := by
  decide

/-- C3.  The fixed decoder of `src/core/src/tms1100.rs` tags the
micro-coded opcodes 0x01 and 0x0e as Ldp (its Ldp arm spans
0x01..=0x1f), while the decoder of `src/core/src/tms1100/pla.rs` — the
one its test suite asserts — gives them no fixed instruction and
assigns Ldp to exactly 0x10..=0x1f. -/
theorem c3_ldp_range_mismatch :
    Fixed.decode 0x01 = Fixed.Ldp ∧ Fixed.decode 0x0e = Fixed.Ldp ∧
    pla.Fixed.decode 0x01 = none ∧ pla.Fixed.decode 0x0e = none ∧
    (∀ op : Fin 256, (pla.Fixed.decode op.val = some pla.Fixed.Ldp ↔
      0x10 ≤ op.val ∧ op.val ≤ 0x1f)) := by
  decide

/-- C4 counterexample.  Running the six sub-cycles of CLA (opcode 0x7f)
from A=5, SL=false leaves the status latch SL false, not true as the
claim states: the micro mask CKP|CIN|C8|AUTA has no STSL, and only STSL
writes the status latch. -/
theorem c4_cla_sl_not_set :
    (Tms1100.clockN 6 cpuC4 romZ ramZ).1.flags.status = false := by
  decide

/-- C4 amended.  From the sub-cycle-0 state with A=5, SL=false, the CLA
opcode 0x7f latched and decoded (micro mask CKP|CIN|C8|AUTA, no fixed
instruction, constant 0xf) and the remaining registers, ROM and RAM
zeroed, the six sub-cycles of the instruction leave A=0 and SL=false:
the status latch is unchanged because the mask has no STSL, while the
adder's internal status output ends true (P=0xf, carry_in, N=0 produce
output 0 with a carry that C8 keeps in the adder status). -/
theorem c4_cla_amended :
    (Tms1100.clockN 6 cpuC4 romZ ramZ).1.a = 0 ∧
    (Tms1100.clockN 6 cpuC4 romZ ramZ).1.flags.status = false ∧
    (Tms1100.clockN 6 cpuC4 romZ ramZ).1.alu.status = true := by
  decide

/-- C5.  Whenever the buzzer has recorded at least two pulses and the
period end equals the period start, `Buzzer::sync` divides by the zero
period and panics instead of disabling the frontend. -/
theorem c5_sync_zero_period_faults (b : Buzzer)
    (h1 : 2 ≤ b.pulse_times) (h2 : b.end_ = b.start) :
    Buzzer.sync b = none := by
  unfold Buzzer.sync Ms.elapsed
  rw [h2]
  simp [h1]

/-- C5 witness: the buzzer state with two pulses at equal times. -/
theorem c5_sync_zero_period_faults_witness :
    2 ≤ (Buzzer.mk false 2 100 100).pulse_times ∧
    Buzzer.sync (Buzzer.mk false 2 100 100) = none :=
  ⟨by decide, c5_sync_zero_period_faults (Buzzer.mk false 2 100 100) (by decide) rfl⟩

/-- C6 counterexample.  A `Console::clock` tick whose LCD latch pulse
and not-clock inputs are both low still emits the full pixel product
set, because the harness of `src/core/src/lib.rs` re-emits from the
persistent driver row/column outputs on every tick on which both are
nonzero. -/
theorem c6_console_emits_without_pulse :
    (Console.clock consoleC6 hwC6).2 = (List.range 16).map (fun x => (x, 12)) ∧
    (Console.clock consoleC6 hwC6).1.cpu.r >>> 6 &&& 1 = 0 ∧
    (Console.clock consoleC6 hwC6).1.cpu.r >>> 7 &&& 1 = 0 := by
  decide

/-- C6 amended.  Within a single `Console::clock` tick the coordinates
passed to `enable_pixel` are exactly the pairs (x, y) with x, y in
0..=15 whose bits are set in the driver row and column outputs after
the tick's driver update, whenever both outputs are nonzero — on every
tick, regardless of the latch pulse and not-clock inputs — and no
pixels are passed when either output is zero.  The chip-internal
emission of the `src/core/src/lcd.rs` driver clock, by contrast, is
gated as the claim states: it passes exactly that set when the pulse
and not-clock inputs are both high and the freshly transferred row and
column patterns are nonzero, and nothing on every other call. -/
theorem c6_pixel_set_amended :
    (∀ (c : Console) (hw : HwInput) (x y : Nat),
      ((x, y) ∈ (Console.clock c hw).2 ↔
        ((Console.clock c hw).1.driver.row ≠ 0 ∧
         (Console.clock c hw).1.driver.col ≠ 0 ∧
         y < 16 ∧ x < 16 ∧
         (Console.clock c hw).1.driver.row >>> y &&& 1 ≠ 0 ∧
         (Console.clock c hw).1.driver.col >>> x &&& 1 ≠ 0))) ∧
    (∀ (h : Hughes) (d : Nat) (p nc : Bool) (x y : Nat),
      ((x, y) ∈ (lcd.clock h d p nc).2 ↔
        (p = true ∧ nc = true ∧
         (lcd.clock h d p nc).1.row ≠ 0 ∧
         (lcd.clock h d p nc).1.col ≠ 0 ∧
         y < 16 ∧ x < 16 ∧
         (lcd.clock h d p nc).1.row >>> y &&& 1 ≠ 0 ∧
         (lcd.clock h d p nc).1.col >>> x &&& 1 ≠ 0))) := by
  constructor
  · intro c hw x y
    simp only [Console.clock]
    split
    next hcond =>
      simp only [List.not_mem_nil, false_iff]
      simp only [Bool.or_eq_true, decide_eq_true_eq] at hcond
      rcases hcond with h0 | h0 <;> simp [h0]
    next hcond =>
      simp only [Bool.or_eq_true, decide_eq_true_eq, not_or] at hcond
      rw [mem_emitPixels]
      simp [hcond.1, hcond.2]
  · intro h d p nc x y
    simp only [lcd.clock, latchStep_pulse, latchStep_not_clock]
    split
    next hpnc =>
      simp only [Bool.and_eq_true] at hpnc
      obtain ⟨hp, hnc⟩ := hpnc
      subst hp; subst hnc
      split
      next hz =>
        simp only [List.not_mem_nil, false_iff]
        simp only [Bool.or_eq_true, decide_eq_true_eq] at hz
        rcases hz with h0 | h0 <;> simp [h0]
      next hz =>
        simp only [Bool.or_eq_true, decide_eq_true_eq, not_or] at hz
        rw [mem_emitPixels]
        simp [hz.1, hz.2]
    next hpnc =>
      simp only [List.not_mem_nil, false_iff]
      simp only [Bool.and_eq_true, not_and] at hpnc
      by_cases hp : p = true
      · have hnc : ¬ nc = true := hpnc hp
        simp [hnc]
      · simp [hp]

/-- C7.  A call of the `src/core/src/lcd.rs` driver clock with pulse
high and not-clock high on all-zero latches returns early on the zero
row pattern and skips the pulse-driven counter reset, leaving the latch
counter at 1; the twin implementation in `src/core/src/hughes0488.rs`
resets it to 0 on the same inputs. -/
theorem c7_lcd_pulse_skips_counter_reset :
    (lcd.clock Hughes.new 0 true true).1.counter = 1 ∧
    (hughes0488.clock Hughes.new 0 true true).counter = 0 := by
  decide

/-- C8 counterexample.  The rotary percentage constructor of
`src/core/src/rotary.rs` asserts `amount < 101`, so construction from
101 panics instead of clamping to 100. -/
theorem c8_rotary_percentage_panics_above_100 :
    rotary.Percentage.new 101 = none := rfl

/-- C8 amended.  The constructor of `src/core/src/hardware.rs` clamps
every input above 100 to 100 and passes inputs up to 100 through, while
the constructor of `src/core/src/rotary.rs` passes inputs up to 100
through but fails (panics) on every input above 100. -/
theorem c8_percentage_amended (v : Nat) :
    (100 < v → hardware.Percentage.new v = 100 ∧ rotary.Percentage.new v = none) ∧
    (v ≤ 100 → hardware.Percentage.new v = v ∧ rotary.Percentage.new v = some v) := by
  unfold hardware.Percentage.new rotary.Percentage.new
  constructor
  · intro h
    constructor
    · simp [Nat.min_def]
      omega
    · rw [if_neg (by omega)]
  · intro h
    constructor
    · simp [Nat.min_def]
      omega
    · rw [if_pos (by omega)]

/-- C8 amended witness: the two constructors evaluated at 101 and 50. -/
theorem c8_percentage_amended_witness :
    (hardware.Percentage.new 101 = 100 ∧ rotary.Percentage.new 101 = none) ∧
    (hardware.Percentage.new 50 = 50 ∧ rotary.Percentage.new 50 = some 50) :=
  ⟨(c8_percentage_amended 101).1 (by decide), (c8_percentage_amended 50).2 (by decide)⟩

end Milton
